import Mathlib

/-
Verification of the SQL workbench GUI core (editor completion engine and
results grid).  The definitions below are a shallow embedding of the
TypeScript sources:

  * `parseTableAliases`, `provideCompletionItems` and the schema cache are
    translated from `gui/src/components/Editor/SqlEditor.tsx`.  The two
    alias-scanning regular expressions are compiled by hand into
    deterministic matchers with the same backtracking behaviour as the
    JavaScript engine on these patterns; the global `exec` loop is the
    fueled `scanPattern` function (every match consumes at least four
    characters, so fuel `length + 1` is enough to reach the end of input).
  * `defaultColumnWidths`, `columnWidths`, `handleResizeMove` and
    `renderState` are translated from the `ResultsTable` component.
  * The virtual row window is modelled from the specification, because its
    implementation lives in the external `@tanstack/react-virtual` package.

JavaScript strings are modelled as `String`/`List Char`; the ASCII case
mapping of `toLowerCase`/`toUpperCase` (the only range exercised by the
code, whose tokens are `\w` captures and ASCII keywords) is modelled by
`Char.toLower`/`Char.toUpper` lifted pointwise to strings.
-/

namespace Knowhere

/-! ## ASCII case folding -/

theorem toNat_ofNat_of_valid {n : Nat} (h : n.isValidChar) : (Char.ofNat n).toNat = n := by
  unfold Char.ofNat
  rw [dif_pos h]
  rfl

theorem char_eq_of_toNat_eq {c d : Char} (h : c.toNat = d.toNat) : c = d := by
  have hc := Char.ofNat_toNat c
  have hd := Char.ofNat_toNat d
  rw [← hc, ← hd, h]

theorem toNat_toLower (c : Char) :
    c.toLower.toNat = if c.toNat ≥ 65 ∧ c.toNat ≤ 90 then c.toNat + 32 else c.toNat := by
  simp only [Char.toLower]
  split
  · next h => exact toNat_ofNat_of_valid (Or.inl (by omega))
  · rfl

theorem toNat_toUpper (c : Char) :
    c.toUpper.toNat = if c.toNat ≥ 97 ∧ c.toNat ≤ 122 then c.toNat - 32 else c.toNat := by
  simp only [Char.toUpper]
  split
  · next h => exact toNat_ofNat_of_valid (Or.inl (by omega))
  · rfl

theorem toLower_toLower (c : Char) : c.toLower.toLower = c.toLower := by
  apply char_eq_of_toNat_eq
  simp only [toNat_toLower]
  split_ifs <;> omega

theorem toUpper_toLower (c : Char) : c.toLower.toUpper = c.toUpper := by
  apply char_eq_of_toNat_eq
  simp only [toNat_toUpper, toNat_toLower]
  split_ifs <;> omega

/-- Model of JavaScript `String.prototype.toLowerCase` on the ASCII range. -/
def lcStr (s : String) : String := String.mk (s.data.map Char.toLower)

/-- Model of JavaScript `String.prototype.toUpperCase` on the ASCII range. -/
def ucStr (s : String) : String := String.mk (s.data.map Char.toUpper)

theorem ucStr_lcStr (s : String) : ucStr (lcStr s) = ucStr s := by
  simp only [ucStr, lcStr, List.map_map]
  exact congrArg String.mk (List.map_congr_left fun c _ => toUpper_toLower c)

theorem lcStr_lcStr (s : String) : lcStr (lcStr s) = lcStr s := by
  simp only [lcStr, List.map_map]
  exact congrArg String.mk (List.map_congr_left fun c _ => toLower_toLower c)

/-! ## Association lists

JavaScript plain objects used as maps (`aliases`, `schemaCache`,
`columnWidthOverrides`) are modelled as association lists where assignment
replaces the value of an existing key in place and appends a new key. -/

def lookupA {α β : Type} [DecidableEq α] : List (α × β) → α → Option β
  | [], _ => none
  | (k, v) :: t, a => if k = a then some v else lookupA t a

def setA {α β : Type} [DecidableEq α] : List (α × β) → α → β → List (α × β)
  | [], k, v => [(k, v)]
  | (k₁, v₁) :: t, k, v => if k₁ = k then (k, v) :: t else (k₁, v₁) :: setA t k v

theorem lookupA_setA {α β : Type} [DecidableEq α] (m : List (α × β)) (k a : α) (v : β) :
    lookupA (setA m k v) a = if k = a then some v else lookupA m a := by
  induction m with
  | nil => simp [setA, lookupA]
  | cons p t ih =>
    obtain ⟨k₁, v₁⟩ := p
    by_cases h : k₁ = k
    · subst h
      simp only [setA, if_pos rfl, lookupA]
      by_cases ha : k₁ = a <;> simp [ha]
    · simp only [setA, if_neg h, lookupA, ih]
      split_ifs <;> simp_all

theorem mem_setA {α β : Type} [DecidableEq α] (m : List (α × β)) (k : α) (v : β) (p : α × β)
    (hp : p ∈ setA m k v) : p = (k, v) ∨ p ∈ m := by
  induction m with
  | nil => simpa [setA] using hp
  | cons q t ih =>
    obtain ⟨k₁, v₁⟩ := q
    simp only [setA] at hp
    split_ifs at hp with h
    · rcases List.mem_cons.mp hp with h1 | h1
      · exact Or.inl h1
      · exact Or.inr (List.mem_cons_of_mem _ h1)
    · rcases List.mem_cons.mp hp with h1 | h1
      · exact Or.inr (h1 ▸ List.mem_cons_self _ _)
      · rcases ih h1 with h2 | h2
        · exact Or.inl h2
        · exact Or.inr (List.mem_cons_of_mem _ h2)

/-! ## Character classes of the JavaScript regular expressions -/

/-- JavaScript `\w`: ASCII letters, digits and underscore. -/
def isWordChar (c : Char) : Bool := c.isAlphanum || c = '_'

/-- JavaScript `\s` restricted to the ASCII whitespace characters. -/
def isSpaceChar (c : Char) : Bool :=
  c = ' ' || c = '\t' || c = '\n' || c = '\r' || c = Char.ofNat 11 || c = Char.ofNat 12

/-- The optional quote character class `["']` of the alias patterns. -/
def isQuoteChar (c : Char) : Bool := c = '"' || c = Char.ofNat 39

/-! ## SQL keyword vocabulary (from `SQL_KEYWORDS` in SqlEditor.tsx) -/

def SQL_KEYWORDS : List String := [
  "SELECT", "FROM", "WHERE", "AND", "OR", "NOT", "IN", "LIKE", "BETWEEN",
  "ORDER BY", "GROUP BY", "HAVING", "LIMIT", "OFFSET", "AS",
  "JOIN", "LEFT JOIN", "RIGHT JOIN", "INNER JOIN", "OUTER JOIN", "CROSS JOIN",
  "ON", "USING", "UNION", "UNION ALL", "EXCEPT", "INTERSECT",
  "INSERT INTO", "VALUES", "UPDATE", "SET", "DELETE FROM",
  "CREATE TABLE", "DROP TABLE", "ALTER TABLE", "ADD", "COLUMN",
  "DISTINCT", "ALL", "NULL", "IS NULL", "IS NOT NULL",
  "ASC", "DESC", "CASE", "WHEN", "THEN", "ELSE", "END",
  "COUNT", "SUM", "AVG", "MIN", "MAX", "COALESCE", "CAST"]

/-- The guard `SQL_KEYWORDS.some(k => k.toUpperCase() === alias.toUpperCase())`. -/
def isSqlKeyword (a : String) : Bool :=
  SQL_KEYWORDS.any fun k => decide (ucStr k = ucStr a)

theorem isSqlKeyword_lcStr (a : String) : isSqlKeyword (lcStr a) = isSqlKeyword a := by
  simp [isSqlKeyword, ucStr_lcStr]

/-! ## Hand-compiled matchers for the two alias-scanning patterns

Pattern 1: `(?:FROM|JOIN)\s+["']?(\w+)["']?\s+(?:AS\s+)?["']?(\w+)["']?`
Pattern 2: `(?:FROM|JOIN)\s+["']?(\w+)["']?\s+["']?(\w+)["']?(?:\s+(?:ON|WHERE|LEFT|RIGHT|INNER|OUTER|CROSS|JOIN|ORDER|GROUP|LIMIT|$))`
both with flags `gi`.  On these patterns the JavaScript backtracking search
is deterministic except for the optional `(?:AS\s+)?` group, which is tried
greedily first and dropped if the remainder of the pattern fails. -/

/-- Consume a literal case-insensitively (the `i` flag), returning the rest. -/
def matchLitCI : List Char → List Char → Option (List Char)
  | [], s => some s
  | _ :: _, [] => none
  | l :: lt, c :: ct => if c.toLower = l.toLower then matchLitCI lt ct else none

/-- Ordered alternation of literals, as in `(?:FROM|JOIN)`. -/
def matchOneOfCI : List (List Char) → List Char → Option (List Char)
  | [], _ => none
  | l :: ls, s =>
    match matchLitCI l s with
    | some r => some r
    | none => matchOneOfCI ls s

/-- Greedy `p+`: one or more characters of a class, maximal munch. -/
def takeWhile1 (p : Char → Bool) (s : List Char) : Option (List Char × List Char) :=
  match s with
  | [] => none
  | c :: t => if p c then some ((c :: t).takeWhile p, (c :: t).dropWhile p) else none

/-- Greedy `["']?`: consume one quote character when present. -/
def optQuote (s : List Char) : List Char :=
  match s with
  | c :: t => if isQuoteChar c then t else c :: t
  | [] => []

/-- The suffix `(?:AS\s+)?["']?(\w+)["']?` of pattern 1, returning the alias
capture.  The optional `AS` group is attempted first; if the rest of the
pattern then fails the group is dropped, exactly as the regex engine
backtracks. -/
def aliasTail (s : List Char) : Option (List Char × List Char) :=
  let finish := fun (s1 : List Char) =>
    match takeWhile1 isWordChar (optQuote s1) with
    | some (al, s2) => some (al, optQuote s2)
    | none => none
  match matchLitCI ['a', 's'] s with
  | some s1 =>
    match takeWhile1 isSpaceChar s1 with
    | some (_, s2) =>
      match finish s2 with
      | some r => some r
      | none => finish s
    | none => finish s
  | none => finish s

/-- Attempt pattern 1 anchored at the head of `s`; on success return the
`(table, alias)` captures and the rest of the input after the match. -/
def p1at (s : List Char) : Option (String × String × List Char) := do
  let s1 ← matchOneOfCI [['f', 'r', 'o', 'm'], ['j', 'o', 'i', 'n']] s
  let (_, s2) ← takeWhile1 isSpaceChar s1
  let (tbl, s3) ← takeWhile1 isWordChar (optQuote s2)
  let (_, s4) ← takeWhile1 isSpaceChar (optQuote s3)
  let (al, s5) ← aliasTail s4
  pure (String.mk tbl, String.mk al, s5)

/-- The boundary keywords of pattern 2, in the order the alternation tries
them. -/
def boundaryKeywords : List (List Char) :=
  [['o', 'n'], ['w', 'h', 'e', 'r', 'e'], ['l', 'e', 'f', 't'],
   ['r', 'i', 'g', 'h', 't'], ['i', 'n', 'n', 'e', 'r'],
   ['o', 'u', 't', 'e', 'r'], ['c', 'r', 'o', 's', 's'],
   ['j', 'o', 'i', 'n'], ['o', 'r', 'd', 'e', 'r'],
   ['g', 'r', 'o', 'u', 'p'], ['l', 'i', 'm', 'i', 't']]

/-- The suffix `(?:\s+(?:ON|WHERE|...|LIMIT|$))` of pattern 2. -/
def boundaryAfter (s : List Char) : Option (List Char) := do
  let (_, s1) ← takeWhile1 isSpaceChar s
  match matchOneOfCI boundaryKeywords s1 with
  | some r => pure r
  | none => if s1 = [] then pure [] else none

/-- Attempt pattern 2 anchored at the head of `s`. -/
def p2at (s : List Char) : Option (String × String × List Char) := do
  let s1 ← matchOneOfCI [['f', 'r', 'o', 'm'], ['j', 'o', 'i', 'n']] s
  let (_, s2) ← takeWhile1 isSpaceChar s1
  let (tbl, s3) ← takeWhile1 isWordChar (optQuote s2)
  let (_, s4) ← takeWhile1 isSpaceChar (optQuote s3)
  let (al, s5) ← takeWhile1 isWordChar (optQuote s4)
  let s6 ← boundaryAfter (optQuote s5)
  pure (String.mk tbl, String.mk al, s6)

/-- The `while ((match = pattern.exec(sql)) !== null)` loop of a global
regex: search for the leftmost match, emit its captures, continue after it.
Every match consumes at least the four characters of `FROM`/`JOIN`, so fuel
`s.length + 1` (supplied by the callers below) runs the loop to completion. -/
def scanPattern (pat : List Char → Option (String × String × List Char)) :
    Nat → List Char → List (String × String)
  | 0, _ => []
  | _ + 1, [] => []
  | fuel + 1, c :: t =>
    match pat (c :: t) with
    | some (tbl, al, rest) => (tbl, al) :: scanPattern pat fuel rest
    | none => scanPattern pat fuel t

/-- One `aliases[alias.toLowerCase()] = tableName` step, guarded by
`alias && !SQL_KEYWORDS.some(...)`. -/
def insertAlias (m : List (String × String)) (tbl al : String) : List (String × String) :=
  if al ≠ "" ∧ isSqlKeyword al = false then setA m (lcStr al) tbl else m

/-- Fold a pattern's match list into the alias object, in match order. -/
def applyMatches (m : List (String × String)) (ms : List (String × String)) :
    List (String × String) :=
  ms.foldl (fun acc p => insertAlias acc p.1 p.2) m

/-- All matches of the first pattern (the `AS` pattern). -/
def pass1Matches (sql : String) : List (String × String) :=
  scanPattern p1at (sql.data.length + 1) sql.data

/-- All matches of the second pattern (the boundary-keyword pattern). -/
def pass2Matches (sql : String) : List (String × String) :=
  scanPattern p2at (sql.data.length + 1) sql.data

/-- `parseTableAliases` of SqlEditor.tsx: run both patterns over the text,
inserting every match of pattern 1 and then every match of pattern 2 into
one alias map. -/
def parseTableAliases (sql : String) : List (String × String) :=
  applyMatches (applyMatches [] (pass1Matches sql)) (pass2Matches sql)

/-! ## Properties of the two-pass alias merge -/

def orO {α : Type} (x y : Option α) : Option α :=
  match x with
  | some v => some v
  | none => y

theorem lookupA_applyMatches (ms : List (String × String)) (m : List (String × String))
    (a : String) :
    lookupA (applyMatches m ms) a = orO (lookupA (applyMatches [] ms) a) (lookupA m a) := by
  induction ms generalizing m with
  | nil => simp [applyMatches, orO, lookupA]
  | cons p ms ih =>
    obtain ⟨tbl, al⟩ := p
    have hstep : ∀ (m₀ : List (String × String)),
        applyMatches m₀ ((tbl, al) :: ms) = applyMatches (insertAlias m₀ tbl al) ms :=
      fun _ => rfl
    have h1 := ih (insertAlias m tbl al)
    have h2 := ih (insertAlias [] tbl al)
    rw [hstep m, h1, hstep [], h2]
    cases hX : lookupA (applyMatches [] ms) a with
    | some v => simp [orO]
    | none =>
      simp only [orO]
      unfold insertAlias
      split_ifs with hg
      · rw [lookupA_setA, lookupA_setA]
        split_ifs <;> simp [orO, lookupA]
      · simp [orO, lookupA]

theorem applyMatches_keys (ms : List (String × String)) (m : List (String × String))
    (hm : ∀ p ∈ m, p.1 = lcStr p.1 ∧ isSqlKeyword p.1 = false) :
    ∀ p ∈ applyMatches m ms, p.1 = lcStr p.1 ∧ isSqlKeyword p.1 = false := by
  induction ms generalizing m with
  | nil => exact hm
  | cons q ms ih =>
    obtain ⟨tbl, al⟩ := q
    have hstep : applyMatches m ((tbl, al) :: ms) = applyMatches (insertAlias m tbl al) ms := rfl
    rw [hstep]
    apply ih
    intro p hp
    unfold insertAlias at hp
    split_ifs at hp with hg
    · rcases mem_setA _ _ _ _ hp with h1 | h1
      · subst h1
        exact ⟨(lcStr_lcStr al).symm, by rw [isSqlKeyword_lcStr]; exact hg.2⟩
      · exact hm p h1
    · exact hm p hp

theorem parseTableAliases_keys (sql : String) :
    ∀ p ∈ parseTableAliases sql, p.1 = lcStr p.1 ∧ isSqlKeyword p.1 = false := by
  unfold parseTableAliases
  apply applyMatches_keys
  apply applyMatches_keys
  intro p hp
  simp at hp

/-! ## Completion engine (provideCompletionItems in SqlEditor.tsx) -/

structure ColumnInfo where
  name : String
  data_type : String
deriving DecidableEq, Repr

inductive CompletionKind
  | Field
  | Class
  | Keyword
deriving DecidableEq, Repr

structure CompletionItem where
  label : String
  kind : CompletionKind
  detail : Option String
  insertText : String
deriving DecidableEq, Repr

/-- A dot-context suggestion: one Field item per column. -/
def mkFieldItem (col : ColumnInfo) : CompletionItem :=
  ⟨col.name, CompletionKind.Field, some col.data_type, col.name⟩

/-- A table suggestion (monaco kind `Class`, detail `Table`, quoted insert). -/
def mkTableItem (t : String) : CompletionItem :=
  ⟨t, CompletionKind.Class, some "Table", "\"" ++ t ++ "\""⟩

/-- A keyword suggestion. -/
def mkKeywordItem (kw : String) : CompletionItem :=
  ⟨kw, CompletionKind.Keyword, none, kw⟩

/-- The dot-context test `textBeforeCursor.match(/(\w+)\.\s*$/)`, returning
the captured identifier: after stripping trailing whitespace the text must
end in a dot preceded by at least one word character; the capture is the
maximal word-character run before the dot (leftmost match start with a
greedy `\w+`). -/
def dotIdent (textBeforeCursor : String) : Option String :=
  let r := textBeforeCursor.data.reverse
  let r1 := r.dropWhile isSpaceChar
  match r1 with
  | c :: rest =>
    if c = '.' then
      let w := rest.takeWhile isWordChar
      if w = [] then none else some (String.mk w.reverse)
    else none
  | [] => none

/-- Reversed-input helper for the `\b(FROM|JOIN)` part of the table-context
test: the (reversed) keyword must be present and be preceded in the original
text by a non-word character or the start of the line. -/
def matchKwRev (litRev : List Char) (s : List Char) : Bool :=
  match matchLitCI litRev s with
  | some rest =>
    match rest with
    | [] => true
    | c :: _ => !(isWordChar c)
  | none => false

/-- The table-context test `/\b(?:FROM|JOIN)\s+\w*$/i.test(textBeforeCursor)`. -/
def afterFromJoin (textBeforeCursor : String) : Bool :=
  let r := textBeforeCursor.data.reverse
  let r1 := r.dropWhile isWordChar
  let r2 := r1.dropWhile isSpaceChar
  decide (r1 ≠ r2) &&
    (matchKwRev ['m', 'o', 'r', 'f'] r2 || matchKwRev ['n', 'i', 'o', 'j'] r2)

/-- Resolution of the identifier before the dot:
`aliases[prefix] || tables.find(t => t.toLowerCase() === prefix)`, followed
by the `if (tableName)` truthiness test (an empty string is falsy). -/
def resolveTableName (aliases : List (String × String)) (tables : List String)
    (pfx : String) : Option String :=
  let viaAlias :=
    match lookupA aliases pfx with
    | some s => if s = "" then tables.find? (fun t => decide (lcStr t = pfx)) else some s
    | none => tables.find? (fun t => decide (lcStr t = pfx))
  match viaAlias with
  | some s => if s = "" then none else some s
  | none => none

/-- The schema cache: a process-wide map from table name to columns. -/
abbrev SchemaCache := List (String × List ColumnInfo)

/-- `provideCompletionItems`, with the asynchronous `getSchema` collaborator
modelled as a function returning `some columns` on success and `none` on a
rejected fetch.  Returns the suggestion list and the updated schema cache. -/
def provideCompletionItems (getSchema : String → Option (List ColumnInfo))
    (cache : SchemaCache) (tables : List String)
    (fullText textBeforeCursor wordAtCursor : String) :
    List CompletionItem × SchemaCache :=
  match dotIdent textBeforeCursor with
  | some ident =>
    let pfx := lcStr ident
    let aliases := parseTableAliases fullText
    match resolveTableName aliases tables pfx with
    | some tableName =>
      match lookupA cache tableName with
      | some columns => (columns.map mkFieldItem, cache)
      | none =>
        match getSchema tableName with
        | some columns => (columns.map mkFieldItem, setA cache tableName columns)
        | none => ([], cache)
    | none => ([], cache)
  | none =>
    let tableItems :=
      if afterFromJoin textBeforeCursor = true ∨ wordAtCursor.length > 0 then
        tables.map mkTableItem
      else []
    (tableItems ++ SQL_KEYWORDS.map mkKeywordItem, cache)

/-! ## Results grid (ResultsTable component) -/

/-- A result cell: `string | number | boolean | null` (numbers restricted to
the integral values the display code stringifies digit-for-digit). -/
inductive CellValue
  | str (s : String)
  | num (n : Int)
  | boolean (b : Bool)
  | null
deriving DecidableEq, Repr

/-- The cell text used by the component:
`cellValue === null ? 'NULL' : String(cellValue)`, with JavaScript
out-of-range indexing yielding `undefined` and `String(undefined)` the text
`"undefined"`. -/
def cellText (row : List CellValue) (i : Nat) : String :=
  match row.get? i with
  | some CellValue.null => "NULL"
  | some (CellValue.str s) => s
  | some (CellValue.num n) => toString n
  | some (CellValue.boolean b) => if b then "true" else "false"
  | none => "undefined"

structure QueryResult where
  columns : List ColumnInfo
  rows : List (List CellValue)
  row_count : Nat
deriving DecidableEq, Repr

/-- `defaultColumnWidths` of ResultsTable: per column, the larger of a header
estimate (`9` px per character plus `32` px padding) and the maximum content
estimate over the first `100` rows (`8` px per character plus `24` px
padding, a null cell rendered as `NULL`), clamped to `[100, 500]`.  A pure
function of the result. -/
def defaultColumnWidths (result : Option QueryResult) : List Int :=
  match result with
  | none => []
  | some r =>
    r.columns.enum.map fun p =>
      let headerWidth : Int := (p.2.name.length : Int) * 9 + 32
      let maxContentWidth : Int :=
        (r.rows.take 100).foldl
          (fun m row => max m (((cellText row p.1).length : Int) * 8 + 24)) 0
      min (max headerWidth (max maxContentWidth 100)) 500

/-- `columnWidths`: the defaults with per-index overrides applied
(`columnWidthOverrides[i] ?? w`). -/
def columnWidths (result : Option QueryResult) (overrides : List (Nat × Int)) : List Int :=
  (defaultColumnWidths result).enum.map fun p => (lookupA overrides p.1).getD p.2

/-- An active resize drag: `{ index, startX, startWidth }`. -/
structure ResizeSession where
  index : Nat
  startX : Int
  startWidth : Int
deriving DecidableEq, Repr

/-- `handleResizeMove`: while a session is active, store
`max(60, startWidth + (clientX - startX))` as the override for the session's
column index, replacing any prior override for that index. -/
def handleResizeMove (resizing : Option ResizeSession) (clientX : Int)
    (overrides : List (Nat × Int)) : List (Nat × Int) :=
  match resizing with
  | none => overrides
  | some r => setA overrides r.index (max 60 (r.startWidth + (clientX - r.startX)))

/-- `handleResizeStart`: open a session at the column's current width. -/
def handleResizeStart (widths : List Int) (i : Nat) (clientX : Int) : Option ResizeSession :=
  some ⟨i, clientX, widths.getD i 0⟩

/-- `handleResizeEnd`: close the session. -/
def handleResizeEnd : Option ResizeSession := none

/-- The five render states of the results surface. -/
inductive RenderState
  | loading
  | errorView
  | noResult
  | emptyRows
  | populated
deriving DecidableEq, Repr

/-- JavaScript truthiness of the `error: string | null` prop. -/
def errorTruthy : Option String → Bool
  | none => false
  | some s => decide (s ≠ "")

/-- The early-return cascade of ResultsTable: loading, then error, then
missing result, then `result.rows.length === 0`, then the populated grid. -/
def renderState (result : Option QueryResult) (error : Option String)
    (isLoading : Bool) : RenderState :=
  if isLoading then RenderState.loading
  else if errorTruthy error then RenderState.errorView
  else
    match result with
    | none => RenderState.noResult
    | some r => if r.rows.length = 0 then RenderState.emptyRows else RenderState.populated

/-! ## Virtual row window

Modelled from the spec: the index-range computation of the row virtualizer
lives in the external `@tanstack/react-virtual` package, not in this
repository's sources; §4.6 of the specification defines it as the range
covering the viewport's pixel extent, expanded by the overscan count on each
side and clamped to `[0, row_count)`, with the scrollable content height
always `row_count × rowHeight`.  The component instantiates it with
`estimateSize: () => 32`, `overscan: 10` and `count: result?.rows.length || 0`. -/

/-- Modelled from the spec: first row index whose pixel extent intersects the
viewport. -/
def coverFirst (rowHeight scroll : Nat) : Nat := scroll / rowHeight

/-- Modelled from the spec: one past the last row index intersecting the
viewport (ceiling division of the viewport's bottom edge). -/
def coverEnd (rowHeight viewportH scroll : Nat) : Nat :=
  (scroll + viewportH + rowHeight - 1) / rowHeight

/-- Modelled from the spec: number of rows covering the viewport. -/
def visibleCount (rowHeight viewportH scroll : Nat) : Nat :=
  coverEnd rowHeight viewportH scroll - coverFirst rowHeight scroll

/-- Modelled from the spec: window start, expanded by overscan and clamped at 0. -/
def windowFirst (overscan rowHeight scroll : Nat) : Nat :=
  coverFirst rowHeight scroll - overscan

/-- Modelled from the spec: one past the window end, expanded by overscan and
clamped at the row count. -/
def windowEnd (count overscan rowHeight viewportH scroll : Nat) : Nat :=
  min count (coverEnd rowHeight viewportH scroll + overscan)

/-- Modelled from the spec: how many rows are actually rendered. -/
def renderedCount (count overscan rowHeight viewportH scroll : Nat) : Nat :=
  windowEnd count overscan rowHeight viewportH scroll - windowFirst overscan rowHeight scroll

/-- The `count` fed to the virtualizer: `result?.rows.length || 0`. -/
def virtualCount : Option QueryResult → Nat
  | none => 0
  | some r => r.rows.length

/-- Modelled from the spec: `getTotalSize()`, the scrollable content height. -/
def totalSize (count rowHeight : Nat) : Nat := count * rowHeight

/-! ## Claims about the alias resolver and the completion engine -/

/-- C3: `resolveAliases` applied to `FROM t1 a JOIN t2 b` returns exactly the
mapping `{a: t1, b: t2}`; and for every input, every key of the returned map
is lower-cased and no key case-insensitively equals a reserved SQL keyword. -/
theorem c3_alias_map_shape :
    parseTableAliases "FROM t1 a JOIN t2 b" = [("a", "t1"), ("b", "t2")] ∧
    ∀ (sql : String) (p : String × String), p ∈ parseTableAliases sql →
      p.1 = lcStr p.1 ∧ ∀ kw ∈ SQL_KEYWORDS, ucStr p.1 ≠ ucStr kw := by
  constructor
  · decide
  · intro sql p hp
    obtain ⟨h1, h2⟩ := parseTableAliases_keys sql p hp
    refine ⟨h1, ?_⟩
    intro kw hkw heq
    have hk : isSqlKeyword p.1 = true := by
      unfold isSqlKeyword
      rw [List.any_eq_true]
      refine ⟨kw, hkw, ?_⟩
      simp only [decide_eq_true_eq]
      exact heq.symm
    rw [h2] at hk
    cases hk

theorem c3_alias_map_shape_witness :
    ("x", "t1") ∈ parseTableAliases "FROM t1 x" ∧
    ("x" = lcStr "x" ∧ ∀ kw ∈ SQL_KEYWORDS, ucStr "x" ≠ ucStr kw) :=
  ⟨by decide, c3_alias_map_shape.2 "FROM t1 x" ("x", "t1") (by decide)⟩

/-- C2: whenever the two scanning passes both produce a final binding for the
same alias with different table names, the merged alias map retains the
binding of the pass evaluated second (the boundary-keyword pattern):
the merge is last-write-wins across the two pattern passes. -/
theorem c2_last_write_wins (sql a t1 t2 : String)
    (h1 : lookupA (applyMatches [] (pass1Matches sql)) a = some t1)
    (h2 : lookupA (applyMatches [] (pass2Matches sql)) a = some t2)
    (hne : t1 ≠ t2) :
    lookupA (parseTableAliases sql) a = some t2 := by
  unfold parseTableAliases
  rw [lookupA_applyMatches, h2]
  rfl

theorem c2_last_write_wins_witness :
    lookupA (applyMatches [] (pass1Matches "FROM t1 x ON FROM t2 x")) "x" = some "t2" ∧
    lookupA (applyMatches [] (pass2Matches "FROM t1 x ON FROM t2 x")) "x" = some "t1" ∧
    lookupA (parseTableAliases "FROM t1 x ON FROM t2 x") "x" = some "t1" :=
  ⟨by decide, by decide,
   c2_last_write_wins "FROM t1 x ON FROM t2 x" "x" "t2" "t1" (by decide) (by decide)
     (by decide)⟩

/-- C1: in dot-context, when the identifier before the dot resolves to a
table (via the alias map or case-insensitive match against the known tables)
and that table's columns are available (cache hit, or cache miss with a
successful fetch), completion returns exactly one Field item per column with
`detail` the column's data type and `insertText` the column name, and the
list contains no Class (table) or Keyword items. -/
theorem c1_dot_context_fields (getSchema : String → Option (List ColumnInfo))
    (cache : SchemaCache) (tables : List String)
    (fullText tb word ident tableName : String) (cols : List ColumnInfo)
    (hdot : dotIdent tb = some ident)
    (hres : resolveTableName (parseTableAliases fullText) tables (lcStr ident) = some tableName)
    (hcols : lookupA cache tableName = some cols ∨
      (lookupA cache tableName = none ∧ getSchema tableName = some cols)) :
    (provideCompletionItems getSchema cache tables fullText tb word).1 = cols.map mkFieldItem ∧
    ∀ it ∈ (provideCompletionItems getSchema cache tables fullText tb word).1,
      it.kind = CompletionKind.Field := by
  have hmain :
      (provideCompletionItems getSchema cache tables fullText tb word).1 = cols.map mkFieldItem := by
    rcases hcols with hc | hcc
    · simp [provideCompletionItems, hdot, hres, hc]
    · obtain ⟨hm, hf⟩ := hcc
      simp [provideCompletionItems, hdot, hres, hm, hf]
  refine ⟨hmain, ?_⟩
  rw [hmain]
  intro it hit
  rw [List.mem_map] at hit
  obtain ⟨col, -, rfl⟩ := hit
  rfl

theorem c1_dot_context_fields_witness :
    dotIdent "SELECT o." = some "o" ∧
    resolveTableName (parseTableAliases "FROM orders o") ["orders", "users"] (lcStr "o") =
      some "orders" ∧
    (provideCompletionItems
        (fun t => if t = "orders" then some [⟨"id", "INTEGER"⟩, ⟨"total", "REAL"⟩] else none)
        [] ["orders", "users"] "FROM orders o" "SELECT o." "").1 =
      ([⟨"id", "INTEGER"⟩, ⟨"total", "REAL"⟩] : List ColumnInfo).map mkFieldItem :=
  ⟨by decide, by decide,
   (c1_dot_context_fields
      (fun t => if t = "orders" then some [⟨"id", "INTEGER"⟩, ⟨"total", "REAL"⟩] else none)
      [] ["orders", "users"] "FROM orders o" "SELECT o." "" "o" "orders"
      [⟨"id", "INTEGER"⟩, ⟨"total", "REAL"⟩] (by decide) (by decide)
      (Or.inr ⟨by decide, by decide⟩)).1⟩

/-- C6: in dot-context with a cache miss and a rejected schema fetch, the
engine returns zero suggestions (an empty list, not an error), and the cache
is left unchanged with no entry for the table, so a later request for the
same table reaches the fetch again. -/
theorem c6_fetch_failure (getSchema : String → Option (List ColumnInfo))
    (cache : SchemaCache) (tables : List String)
    (fullText tb word ident tableName : String)
    (hdot : dotIdent tb = some ident)
    (hres : resolveTableName (parseTableAliases fullText) tables (lcStr ident) = some tableName)
    (hmiss : lookupA cache tableName = none)
    (hfail : getSchema tableName = none) :
    (provideCompletionItems getSchema cache tables fullText tb word).1 = [] ∧
    (provideCompletionItems getSchema cache tables fullText tb word).2 = cache ∧
    lookupA (provideCompletionItems getSchema cache tables fullText tb word).2 tableName =
      none := by
  have h : provideCompletionItems getSchema cache tables fullText tb word = ([], cache) := by
    simp [provideCompletionItems, hdot, hres, hmiss, hfail]
  rw [h]
  exact ⟨rfl, rfl, hmiss⟩

theorem c6_fetch_failure_witness :
    (provideCompletionItems (fun _ => none) [] ["orders"] "FROM orders o" "SELECT o." "").1 =
      [] ∧
    (provideCompletionItems (fun _ => none) [] ["orders"] "FROM orders o" "SELECT o." "").2 =
      [] ∧
    lookupA (provideCompletionItems (fun _ => none) [] ["orders"] "FROM orders o"
      "SELECT o." "").2 "orders" = none :=
  c6_fetch_failure (fun _ => none) [] ["orders"] "FROM orders o" "SELECT o." "" "o" "orders"
    (by decide) (by decide) (by decide) (by decide)

/-- C10: a dot-context request whose identifier resolves to neither an alias
nor a known table returns an empty suggestion list — no Field, Class or
Keyword items at all — even though every non-dot-context request offers
every SQL keyword. -/
theorem c10_unresolved_dot_empty (getSchema : String → Option (List ColumnInfo))
    (cache : SchemaCache) (tables : List String) (fullText tb word : String) :
    (∀ ident, dotIdent tb = some ident →
      resolveTableName (parseTableAliases fullText) tables (lcStr ident) = none →
      (provideCompletionItems getSchema cache tables fullText tb word).1 = []) ∧
    (dotIdent tb = none →
      ∀ kw ∈ SQL_KEYWORDS,
        mkKeywordItem kw ∈ (provideCompletionItems getSchema cache tables fullText tb word).1) := by
  constructor
  · intro ident hdot hres
    simp [provideCompletionItems, hdot, hres]
  · intro hdot kw hkw
    simp only [provideCompletionItems, hdot]
    exact List.mem_append_right _ (List.mem_map_of_mem _ hkw)

theorem c10_unresolved_dot_empty_witness :
    (provideCompletionItems (fun _ => none) [] ["orders"] "SELECT" "SELECT q." "").1 = [] ∧
    mkKeywordItem "SELECT" ∈
      (provideCompletionItems (fun _ => none) [] ["orders"] "SELECT" "SELECT " "").1 :=
  ⟨(c10_unresolved_dot_empty (fun _ => none) [] ["orders"] "SELECT" "SELECT q." "").1 "q"
      (by decide) (by decide),
   (c10_unresolved_dot_empty (fun _ => none) [] ["orders"] "SELECT" "SELECT " "").2
      (by decide) "SELECT" (by decide)⟩

/-! ## Claims about the results grid -/

theorem get?_enumFrom_map {α β : Type} (f : Nat × α → β) :
    ∀ (l : List α) (n i : Nat),
      ((List.enumFrom n l).map f).get? i = (l.get? i).map fun a => f (n + i, a) := by
  intro l
  induction l with
  | nil => intro n i; simp
  | cons a t ih =>
    intro n i
    cases i with
    | zero => simp
    | succ j =>
      simp only [List.enumFrom, List.map_cons, List.get?_cons_succ]
      rw [ih (n + 1) j]
      have h : n + 1 + j = n + (j + 1) := by omega
      rw [h]

/-- The clamp of the width formula in the specification. -/
def clampW (x lo hi : Int) : Int := min hi (max lo x)

/-- The header estimate of the specification formula. -/
def specHeaderWidth (col : ColumnInfo) : Int := (col.name.length : Int) * 9 + 32

/-- The content estimate of the specification formula: maximum over the
first 100 rows of the stringified cell length times the character width plus
padding. -/
def specContentWidth (r : QueryResult) (i : Nat) : Int :=
  ((r.rows.take 100).map fun row => ((cellText row i).length : Int) * 8 + 24).foldl max 0

/-- C4: the width estimator is a pure function of the result; for column i
it returns `clamp(max(headerWidth, contentWidth, floor), floor, ceiling)`
with `headerWidth = len(name)·9 + 32`, `contentWidth` the maximum over the
first 100 rows of `len(stringify(cell))·8 + 24` (a null cell printed as
`NULL`), floor 100 and ceiling 500 — and only the first 100 rows are ever
sampled. -/
theorem c4_estimate_widths (r : QueryResult) :
    defaultColumnWidths (some r) =
      defaultColumnWidths (some { r with rows := r.rows.take 100 }) ∧
    ∀ i col, r.columns.get? i = some col →
      (defaultColumnWidths (some r)).get? i =
        some (clampW (max (specHeaderWidth col) (max (specContentWidth r i) 100)) 100 500) := by
  constructor
  · simp [defaultColumnWidths, List.take_take]
  · intro i col hcol
    simp only [defaultColumnWidths]
    rw [show List.enum r.columns = List.enumFrom 0 r.columns from rfl, get?_enumFrom_map, hcol]
    simp only [Option.map_some']
    congr 1
    simp only [Nat.zero_add, clampW, specHeaderWidth, specContentWidth]
    rw [List.foldl_map]
    omega

theorem c4_estimate_widths_witness :
    (⟨[⟨"id", "INTEGER"⟩], [[CellValue.str "hello"]], 1⟩ : QueryResult).columns.get? 0 =
      some ⟨"id", "INTEGER"⟩ ∧
    (defaultColumnWidths (some ⟨[⟨"id", "INTEGER"⟩], [[CellValue.str "hello"]], 1⟩)).get? 0 =
      some (clampW (max (specHeaderWidth ⟨"id", "INTEGER"⟩)
        (max (specContentWidth ⟨[⟨"id", "INTEGER"⟩], [[CellValue.str "hello"]], 1⟩ 0) 100))
        100 500) :=
  ⟨by decide,
   (c4_estimate_widths ⟨[⟨"id", "INTEGER"⟩], [[CellValue.str "hello"]], 1⟩).2 0
     ⟨"id", "INTEGER"⟩ (by decide)⟩

/-- C5 counterexample: a result whose `row_count` field is 0 but whose rows
matrix is non-empty renders the populated grid, not the empty-rows state —
the code branches on `result.rows.length === 0`, not on
`result.row_count === 0`; and an error that is set but empty (`some ""`) is
falsy in the `if (error)` test, so it renders the no-result state rather
than the error state. -/
theorem c5_row_count_counterexample :
    (⟨[], [[CellValue.null]], 0⟩ : QueryResult).row_count = 0 ∧
    renderState (some ⟨[], [[CellValue.null]], 0⟩) none false = RenderState.populated ∧
    RenderState.populated ≠ RenderState.emptyRows ∧
    renderState none (some "") false = RenderState.noResult ∧
    RenderState.noResult ≠ RenderState.errorView := by
  decide

/-- C5 (amended): the results surface renders exactly one of five mutually
exclusive states, in precedence order: loading if `isLoading`; else error if
`error` is non-null and non-empty; else no-result if `result` is null; else
empty-rows if `result.rows.length === 0` (which coincides with
`row_count === 0` whenever `row_count` equals the number of rows); else
populated. -/
theorem c5_render_states (result : Option QueryResult) (error : Option String)
    (isLoading : Bool) :
    (renderState result error isLoading = RenderState.loading ↔ isLoading = true) ∧
    (renderState result error isLoading = RenderState.errorView ↔
      (isLoading = false ∧ errorTruthy error = true)) ∧
    (renderState result error isLoading = RenderState.noResult ↔
      (isLoading = false ∧ errorTruthy error = false ∧ result = none)) ∧
    (renderState result error isLoading = RenderState.emptyRows ↔
      (isLoading = false ∧ errorTruthy error = false ∧
        ∃ r, result = some r ∧ r.rows.length = 0)) ∧
    (renderState result error isLoading = RenderState.populated ↔
      (isLoading = false ∧ errorTruthy error = false ∧
        ∃ r, result = some r ∧ r.rows.length ≠ 0)) := by
  unfold renderState
  cases isLoading with
  | true => simp
  | false =>
    cases herr : errorTruthy error with
    | true => simp
    | false =>
      cases result with
      | none => simp
      | some r =>
        by_cases hr : r.rows.length = 0
        · simp [hr, List.length_eq_zero.mp hr]
        · have hne : r.rows ≠ [] := fun he => hr (by rw [he]; rfl)
          simp [hr, hne]

/-- C7: each pointer-move during an active resize stores
`max(minimumFloor, startWidth + (currentX − startX))` — with floor 60 — as
the override for the session's column index, replacing any prior override;
and no move ever stores a width below the floor. -/
theorem c7_resize_floor (r : ResizeSession) (clientX : Int) (overrides : List (Nat × Int)) :
    lookupA (handleResizeMove (some r) clientX overrides) r.index =
      some (max 60 (r.startWidth + (clientX - r.startX))) ∧
    ∀ (rz : Option ResizeSession) (k : Nat) (w : Int),
      (∀ k₂ w₂, lookupA overrides k₂ = some w₂ → 60 ≤ w₂) →
      lookupA (handleResizeMove rz clientX overrides) k = some w → 60 ≤ w := by
  constructor
  · unfold handleResizeMove
    rw [lookupA_setA, if_pos rfl]
  · intro rz k w hinv hl
    cases rz with
    | none => exact hinv k w hl
    | some r₂ =>
      unfold handleResizeMove at hl
      rw [lookupA_setA] at hl
      split_ifs at hl with h
      · obtain rfl : max 60 (r₂.startWidth + (clientX - r₂.startX)) = w := Option.some.inj hl
        exact le_max_left 60 _
      · exact hinv k w hl

theorem c7_resize_floor_witness :
    lookupA (handleResizeMove (some ⟨0, 0, 120⟩) (-200) []) 0 =
      some (max 60 (120 + (-200 - 0))) ∧
    max (60 : Int) (120 + (-200 - 0)) = 60 ∧
    (60 : Int) ≤ 60 :=
  ⟨(c7_resize_floor ⟨0, 0, 120⟩ (-200) []).1, by decide,
   (c7_resize_floor ⟨0, 0, 120⟩ (-200) []).2 (some ⟨0, 0, 120⟩) 0 60
     (fun k₂ w₂ h => by simp [lookupA] at h) (by decide)⟩

/-- Three-column and four-column result sets used to exhibit the behaviour of
width overrides across differently-shaped results. -/
def resA : QueryResult := ⟨[⟨"a", "t"⟩, ⟨"b", "t"⟩, ⟨"c", "t"⟩], [], 0⟩

def resB : QueryResult := ⟨[⟨"p", "t"⟩, ⟨"q", "t"⟩, ⟨"r", "t"⟩, ⟨"s", "t"⟩], [], 0⟩

/-- C8 counterexample: an override stored at column index 2 (while the
3-column result `resA` was shown) IS applied to column 2 of the newly
supplied 4-column result `resB`: the component never clears
`columnWidthOverrides` when a differently-shaped ResultSet arrives, so the
claimed clearing does not happen. -/
theorem c8_stale_override_counterexample :
    resA.columns.length = 3 ∧ resB.columns.length = 4 ∧
    resA.columns.length ≠ resB.columns.length ∧
    (columnWidths (some resB) (setA [] 2 200)).get? 2 = some 200 ∧
    (defaultColumnWidths (some resB)).get? 2 = some 100 ∧ (200 : Int) ≠ 100 := by
  decide

/-- C8 (amended): overrides persist: re-rendering the identical ResultSet
preserves an override, and a stale override is likewise applied positionally
to any newly supplied ResultSet — of the same or a different column count —
whose column range contains the overridden index; overrides are never
cleared on a result change. -/
theorem c8_overrides_persist (result : QueryResult) (overrides : List (Nat × Int))
    (i : Nat) (w : Int)
    (hov : lookupA overrides i = some w)
    (hi : i < (defaultColumnWidths (some result)).length) :
    (columnWidths (some result) overrides).get? i = some w := by
  unfold columnWidths
  rw [show List.enum (defaultColumnWidths (some result)) =
      List.enumFrom 0 (defaultColumnWidths (some result)) from rfl, get?_enumFrom_map]
  obtain ⟨d, hd⟩ : ∃ d, (defaultColumnWidths (some result)).get? i = some d := by
    rw [List.get?_eq_get hi]
    exact ⟨_, rfl⟩
  rw [hd]
  simp [hov]

theorem c8_overrides_persist_witness :
    lookupA (setA ([] : List (Nat × Int)) 2 200) 2 = some 200 ∧
    2 < (defaultColumnWidths (some resB)).length ∧
    (columnWidths (some resB) (setA [] 2 200)).get? 2 = some 200 :=
  ⟨by decide, by decide,
   c8_overrides_persist resB (setA [] 2 200) 2 200 (by decide) (by decide)⟩

/-- C9: the rendered range is the viewport-covering range expanded by the
overscan on each side and clamped to `[0, count)`: its length never exceeds
`visible rows + 2·overscan` independently of the total row count, equals
exactly that away from the boundaries, and the scrollable content height is
always `count × rowHeight`. -/
theorem c9_virtual_window (rowHeight overscan count viewportH scroll : Nat) :
    renderedCount count overscan rowHeight viewportH scroll ≤
      visibleCount rowHeight viewportH scroll + 2 * overscan ∧
    totalSize count rowHeight = count * rowHeight ∧
    (overscan ≤ coverFirst rowHeight scroll ∧
        coverEnd rowHeight viewportH scroll + overscan ≤ count →
      renderedCount count overscan rowHeight viewportH scroll =
        visibleCount rowHeight viewportH scroll + 2 * overscan) := by
  have hcf : coverFirst rowHeight scroll ≤ coverEnd rowHeight viewportH scroll := by
    rcases Nat.eq_zero_or_pos rowHeight with h0 | hpos
    · simp [coverFirst, coverEnd, h0]
    · exact Nat.div_le_div_right (by omega)
  unfold renderedCount windowEnd windowFirst visibleCount totalSize
  refine ⟨?_, rfl, ?_⟩
  · generalize coverFirst rowHeight scroll = cf at *
    generalize coverEnd rowHeight viewportH scroll = ce at *
    omega
  · rintro ⟨h1, h2⟩
    generalize coverFirst rowHeight scroll = cf at *
    generalize coverEnd rowHeight viewportH scroll = ce at *
    omega

theorem c9_virtual_window_witness :
    (10 ≤ coverFirst 32 3200 ∧ coverEnd 32 640 3200 + 10 ≤ 10000) ∧
    renderedCount 10000 10 32 640 3200 = visibleCount 32 640 3200 + 2 * 10 ∧
    visibleCount 32 640 3200 = 20 ∧
    renderedCount 10000 10 32 640 3200 = 40 ∧
    totalSize 10000 32 = 10000 * 32 :=
  ⟨⟨by decide, by decide⟩,
   (c9_virtual_window 32 10 10000 640 3200).2.2 ⟨by decide, by decide⟩,
   by decide, by decide, (c9_virtual_window 32 10 10000 640 3200).2.1⟩

end Knowhere
